import Mathlib

/-!
Verification of the minneapolismugshots extraction-and-prioritization pipeline
(`data.py`): bail parsing, record validation, ranking, the posting queue and
its scheduling gate, and caption generation, shallowly embedded in Lean.

Conventions of the embedding:
* Python strings are Lean `String`s; the string operations the code uses
  (`strip`, `upper`, `in`) are given structural implementations on `List Char`
  so that every definition evaluates by kernel reduction.
* Python floats arising from bail amounts are modelled as `ℚ` (the parsed
  values are short decimal literals, far below any float-precision issue).
* The JSON queue file is modelled as `Option QueueData`: `none` is a missing
  file (`FileNotFoundError`), `some q` its parsed contents.
* Wall-clock instants are modelled abstractly by `Timestamp`: the calendar
  date in the reference timezone (US/Central) as an integer day number, and
  the absolute time in hours as a rational, which is all the code inspects.
-/

/-- The whitespace characters stripped by Python's `str.strip()` (ASCII). -/
def isPySpace (c : Char) : Bool :=
  c == ' ' || c == '\t' || c == '\n' || c == '\x0d' || c == '\x0b' || c == '\x0c'

/-- Python `str.strip()`: drop whitespace from both ends. -/
def pyStrip (cs : List Char) : List Char :=
  ((cs.dropWhile isPySpace).reverse.dropWhile isPySpace).reverse

/-- Python `str.upper()` on the ASCII range the scraped text uses. -/
def pyUpperChar (c : Char) : Char :=
  if 'a' ≤ c ∧ c ≤ 'z' then Char.ofNat (c.toNat - 32) else c

/-- Python `str.upper()`. -/
def pyUpper (cs : List Char) : List Char := cs.map pyUpperChar

/-- Is `pat` a prefix of `cs`? -/
def listStartsWith : List Char → List Char → Bool
  | [], _ => true
  | _ :: _, [] => false
  | a :: as, b :: bs => a == b && listStartsWith as bs

/-- Python `pat in s` on strings: `pat` occurs contiguously in `cs`. -/
def listContainsStr (pat : List Char) : List Char → Bool
  | [] => pat.isEmpty
  | c :: rest => listStartsWith pat (c :: rest) || listContainsStr pat rest

/-- Python `pat in s` for `String`s. -/
def substrB (pat s : String) : Bool := listContainsStr pat.data s.data

/-- Characters matched by the `[\d,]` class of the money regex. -/
def isMoneyChar (c : Char) : Bool := c.isDigit || c == ','

/-- The text captured by one match of the regex `\$[\d,]+\.?\d*`:
the greedy `[\d,]+` run, whether the optional `.` was taken, and the
greedy trailing `\d*` run. -/
structure MoneyMatch where
  intPart : List Char
  hasDot : Bool
  fracPart : List Char
  deriving DecidableEq

/-- Capture the `[\d,]+\.?\d*` part of a money match starting just after the
`$`, assuming the first character is a digit or comma. -/
def takeMoneyRun (cs : List Char) : MoneyMatch :=
  let d1 := cs.takeWhile isMoneyChar
  match cs.dropWhile isMoneyChar with
  | '.' :: rest2 => ⟨d1, true, rest2.takeWhile (·.isDigit)⟩
  | _ => ⟨d1, false, []⟩

/-- Leftmost match of `re.search(r'\$[\d,]+\.?\d*', s)` over the characters of
`s`: scan for a `$` followed by at least one digit or comma. -/
def findMoney : List Char → Option MoneyMatch
  | [] => none
  | '$' :: rest =>
    match rest with
    | c :: _ => if isMoneyChar c then some (takeMoneyRun rest) else findMoney rest
    | [] => none
  | _ :: rest => findMoney rest

/-- Value of a digit string read in base 10. -/
def digitsToNat (ds : List Char) : ℕ := ds.foldl (fun n c => 10 * n + (c.toNat - '0'.toNat)) 0

/-- Python `float(matched_text.replace('$','').replace(',',''))`: commas are
removed from the integer part; `float('')` and `float('.')` raise, which is
`none` here. Other inputs denote `intdigits.fracdigits` as an exact rational. -/
def pyFloatOfMatch (m : MoneyMatch) : Option ℚ :=
  let digits1 := m.intPart.filter (·.isDigit)
  if digits1 = [] ∧ m.fracPart = [] then none
  else some (mkRat (digitsToNat (digits1 ++ m.fracPart)) (10 ^ m.fracPart.length))

/-- Model of `parse_bail_amount` (data.py, lines 679-711): categorical sentinels first,
then the first `$` figure; any exception (an unparsable match) yields 0. -/
def parse_bail_amount (s : String) : ℚ :=
  if s.data = [] ∨ pyStrip s.data = [] then 0
  else
    let up := pyStrip (pyUpper s.data)
    if listContainsStr "NO BAIL".data up || listContainsStr "HOLD WITHOUT BAIL".data up then
      999999999
    else if listContainsStr "RELEASED".data up || listContainsStr "NO BAIL INFORMATION".data up then
      0
    else
      match findMoney s.data with
      | some m => (pyFloatOfMatch m).getD 0
      | none => 0

/-- The local `get_bail_amount` helper inside `save_to_posting_queue`
(data.py, lines 809-816): no categorical sentinels, only the exact
`'No bail information'` guard and the `$` regex; a match whose digits are
empty makes `float` raise, which propagates out (`none`). -/
def get_bail_amount (s : String) : Option ℚ :=
  if s = "" ∨ s = "No bail information" then some 0
  else
    match findMoney s.data with
    | some m => pyFloatOfMatch m
    | none => some 0

/-- One extracted inmate record: the four keys every `extracted_data` dict
carries (`'Full Name'`, `'Charge 1'`, `'Bail'`, `'Mugshot_File'`). -/
structure Inmate where
  fullName : String
  charge : String
  bail : String
  mugshotFile : String
  deriving DecidableEq

/-- The local `get_priority` inside `filter_priority_inmates`
(data.py, lines 798-806), identical to `DataValidator.get_posting_priority`:
+1 for a truthy charge other than the placeholder, +1 for a truthy bail other
than the placeholder. -/
def get_priority (i : Inmate) : ℕ :=
  (if i.charge ≠ "" ∧ i.charge ≠ "No charge listed" then 1 else 0) +
  (if i.bail ≠ "" ∧ i.bail ≠ "No bail information" then 1 else 0)

namespace Config

/-- Model of `Config.DAILY_POST_LIMIT`. -/
def DAILY_POST_LIMIT : ℕ := 5

/-- Model of `Config.POSTING_INTERVAL_HOURS`. -/
def POSTING_INTERVAL_HOURS : ℚ := 2

/-- Model of `Config.POSTING_START_HOUR`. -/
def POSTING_START_HOUR : ℕ := 6

/-- Model of `Config.POSTING_END_HOUR`. -/
def POSTING_END_HOUR : ℕ := 22

/-- Model of `Config.MIN_NAME_LENGTH`. -/
def MIN_NAME_LENGTH : ℕ := 3

/-- Model of `Config.MAX_NAME_LENGTH`. -/
def MAX_NAME_LENGTH : ℕ := 50

/-- Model of `Config.INVALID_BAILS`. -/
def INVALID_BAILS : List String :=
  ["NO BAIL INFORMATION", "NO BAIL REQUIRED", "No bail information", "No bail",
   "No Bail", "No bail required"]

end Config

/-- Model of `FieldExtractor._is_valid_name` (data.py, lines 178-195): non-empty,
at least `MIN_NAME_LENGTH` characters, contains a space, contains an
alphabetic character, at most `MAX_NAME_LENGTH` characters. -/
def is_valid_name (name : String) : Bool :=
  if name = "" ∨ name.data.length < Config.MIN_NAME_LENGTH then false
  else if ' ' ∉ name.data then false
  else if ¬ name.data.any (·.isAlpha) then false
  else if name.data.length > Config.MAX_NAME_LENGTH then false
  else true

/-- Model of `FieldExtractor._is_valid_bail` (data.py, lines 261-279):
non-blank, containing a `$` or one of the bail keywords case-insensitively,
and not exactly equal (stripped, case-insensitively) to a denylisted
placeholder. -/
def is_valid_bail (bail : String) : Bool :=
  if bail = "" ∨ pyStrip bail.data = [] then false
  else if ¬ (listContainsStr "$".data bail.data ∨
      listContainsStr "NO BAIL".data (pyUpper bail.data) ∨
      listContainsStr "RELEASED".data (pyUpper bail.data) ∨
      listContainsStr "BOND".data (pyUpper bail.data)) then false
  else if Config.INVALID_BAILS.any (fun p => pyUpper (pyStrip bail.data) = pyUpper p.data) then
    false
  else true

/-- Result of `DataValidator.validate_inmate_data`, the 4-tuple
`(len(issues) == 0, issues, has_charge, has_bail)`. -/
structure ValidationResult where
  ok : Bool
  issues : List String
  hasCharge : Bool
  hasBail : Bool
  deriving DecidableEq

/-- Model of `DataValidator.validate_inmate_data` (data.py, lines 344-361): the name is
required (truthy and not `'Unknown'`), the mugshot is required (truthy and not
`'No Image'`); charge and bail are computed but add no issues. -/
def validate_inmate_data (d : Inmate) : ValidationResult :=
  let issues :=
    (if d.fullName = "" ∨ d.fullName = "Unknown" then ["Missing or invalid name"] else []) ++
    (if d.mugshotFile = "" ∨ d.mugshotFile = "No Image" then ["Missing mugshot"] else [])
  { ok := issues.length = 0
    issues := issues
    hasCharge := d.charge ≠ "" ∧ d.charge ≠ "No charge listed"
    hasBail := d.bail ≠ "" ∧ d.bail ≠ "No bail information" }

/-- The fallback-name step of `BookingProcessor.process_booking`
(data.py, lines 449-452): when extraction produced no usable name, the record
is renamed `Booking_<bookingId>`. -/
def process_booking_fallback_name (bookingId : String) (d : Inmate) : Inmate :=
  if d.fullName = "" ∨ d.fullName = "Unknown" then
    { d with fullName := "Booking_" ++ bookingId }
  else d

/-- The bail denylist `invalid_bail_patterns` inside `generate_caption`
(data.py, lines 564-571). -/
def invalid_bail_patterns : List String :=
  ["No bail information", "No Bail Information", "Next Court Appearance:",
   "Next Court Appearance", "None", "Unknown"]

/-- The `should_show_na` test of `generate_caption` (data.py, lines 574-580),
applied to the already-stripped bail text: empty, or containing a denylist
phrase, or containing the `NEXT COURT APPEARANCE` artifact case-insensitively. -/
def caption_should_show_na (bail : String) : Bool :=
  bail = "" || invalid_bail_patterns.any (fun p => substrB p bail) ||
    listContainsStr "NEXT COURT APPEARANCE".data (pyUpper bail.data)

/-- The bail line's value in `generate_caption` (data.py, lines 583-586). -/
def caption_bail_display (bail : String) : String :=
  if caption_should_show_na bail then "N/A" else bail

/-- Model of `generate_caption` (data.py, lines 550-602). `currentDate` stands for
`get_current_date()` (the Central-time date string). The charge is read and
stripped like the other fields but does not occur in the template (the final
revision omits it); the `except` fallback line is unreachable here because the
rendering is total. -/
def generate_caption (d : Inmate) (currentDate : String) : String :=
  let name := String.mk (pyStrip d.fullName.data)
  let _charge := String.mk (pyStrip d.charge.data)
  let bail := String.mk (pyStrip d.bail.data)
  "\nNAME: " ++ name ++ "\nBAIL: " ++ caption_bail_display bail ++
    "\n\nArrest Date: " ++ currentDate ++ "\nHennepin County, MN" ++
    "\n\n#minneapolismugshots #HennepinCounty #Arrest #PublicRecord #Minnesota #Minneapolis"

/-- Ascending lexicographic order on Python's sort-key tuples
`(-priority, -bail_amount)`. -/
def keyLe (a b : ℤ × ℚ) : Prop := a.1 < b.1 ∨ (a.1 = b.1 ∧ a.2 ≤ b.2)

instance : DecidableRel keyLe := fun a b =>
  inferInstanceAs (Decidable (a.1 < b.1 ∨ (a.1 = b.1 ∧ a.2 ≤ b.2)))

/-- The sort key `(-get_priority(i), -get_bail_amount(i['Bail']))` of
`filter_priority_inmates`; the bail component is `none` when `float` raises. -/
def fpiKey (i : Inmate) : Option (ℤ × ℚ) :=
  (get_bail_amount i.bail).map (fun b => (-(get_priority i : ℤ), -b))

/-- The sort key with the (never-hit under the `fpiKey`-defined gate) default. -/
def fpiKeyD (i : Inmate) : ℤ × ℚ := (fpiKey i).getD (0, 0)

/-- The comparison `sorted` uses on two records: key of the first ≤ key of the
second, lexicographically. -/
def fpiR (a b : Inmate) : Prop := keyLe (fpiKeyD a) (fpiKeyD b)

instance : DecidableRel fpiR := fun a b =>
  inferInstanceAs (Decidable (keyLe (fpiKeyD a) (fpiKeyD b)))

instance : IsTotal Inmate fpiR where
  total a b := by
    unfold fpiR keyLe
    rcases lt_trichotomy (fpiKeyD a).1 (fpiKeyD b).1 with h | h | h
    · exact Or.inl (Or.inl h)
    · rcases le_total (fpiKeyD a).2 (fpiKeyD b).2 with h2 | h2
      · exact Or.inl (Or.inr ⟨h, h2⟩)
      · exact Or.inr (Or.inr ⟨h.symm, h2⟩)
    · exact Or.inr (Or.inl h)

instance : IsTrans Inmate fpiR where
  trans a b c hab hbc := by
    unfold fpiR keyLe at *
    rcases hab with h1 | ⟨e1, le1⟩ <;> rcases hbc with h2 | ⟨e2, le2⟩
    · exact Or.inl (h1.trans h2)
    · exact Or.inl (e2 ▸ h1)
    · exact Or.inl (e1 ▸ h2)
    · exact Or.inr ⟨e1.trans e2, le1.trans le2⟩

/-- The local `filter_priority_inmates` inside `save_to_posting_queue`
(data.py, lines 796-818):
`sorted(d, key=lambda i: (-get_priority(i), -get_bail_amount(i.get('Bail', ''))))[:n]`.
Python's `sorted` is a stable sort, modelled by `List.insertionSort` under the
lexicographic key comparison; `none` models the `ValueError` that `float`
raises out of a key computation (no `try` protects this code path). -/
def filter_priority_inmates (d : List Inmate) (n : ℕ) : Option (List Inmate) :=
  if d.all (fun i => (fpiKey i).isSome) then
    some ((List.insertionSort fpiR d).take n)
  else none

/-- A wall-clock instant as the queue code observes it: its calendar date in
the reference timezone (US/Central) as an abstract day number, and its
absolute time measured in hours as a rational. -/
structure Timestamp where
  date : ℤ
  hours : ℚ
  deriving DecidableEq

/-- One queue entry `{'id': i+1, 'data': ..., 'posted': ..., 'posted_at': ...}`. -/
structure QueueJob where
  id : ℕ
  data : Inmate
  posted : Bool
  postedAt : Option Timestamp
  deriving DecidableEq

/-- The persisted queue document `{'created_at', 'total_inmates',
'posted_count', 'inmates'}`. -/
structure QueueData where
  createdAt : Timestamp
  totalInmates : ℕ
  postedCount : ℕ
  inmates : List QueueJob
  deriving DecidableEq

/-- The invariant claimed for every written snapshot:
`posted_count == count(j.posted for j in jobs)`. -/
def queueInvariant (q : QueueData) : Prop :=
  q.postedCount = q.inmates.countP (·.posted)

/-- Model of `save_to_posting_queue` (data.py, lines 793-850): rank and truncate to 10,
then wrap each record with a 1-based id, `posted=False`, `posted_at=None`,
`posted_count=0`, and write the snapshot. `now` stands for
`get_current_datetime_iso()`; `none` is the `float` crash escaping the sort. -/
def save_to_posting_queue (dataList : List Inmate) (now : Timestamp) : Option QueueData :=
  (filter_priority_inmates dataList 10).map (fun filtered =>
    { createdAt := now
      totalInmates := filtered.length
      postedCount := 0
      inmates := filtered.enum.map (fun p =>
        { id := p.1 + 1, data := p.2, posted := false, postedAt := none }) })

/-- The queue rewrite performed by `mark_inmates_as_posted` once the file has
been read: matching ids become `posted=True` with `posted_at=now`, and
`posted_count` is recomputed as the number of posted jobs. -/
def markQ (inmateIds : List ℕ) (now : Timestamp) (q : QueueData) : QueueData :=
  let jobs := q.inmates.map (fun j =>
    if j.id ∈ inmateIds then { j with posted := true, postedAt := some now } else j)
  { q with postedCount := jobs.countP (·.posted), inmates := jobs }

/-- Model of `mark_inmates_as_posted` (data.py, lines 961-995): a missing queue file
raises inside the `try`, so the function returns `False` and writes nothing;
otherwise it rewrites the snapshot and returns `True` (mugshot-file deletion
is a filesystem side effect outside this model). -/
def mark_inmates_as_posted (inmateIds : List ℕ) (now : Timestamp) (q : Option QueueData) :
    Bool × Option QueueData :=
  match q with
  | none => (false, none)
  | some qd => (true, some (markQ inmateIds now qd))

/-- The queue rewrite performed by `cleanup_unposted_mugshots` once the file
has been read: unposted jobs are pruned, `total_inmates` and `posted_count`
are recomputed from what is kept. -/
def cleanupQ (q : QueueData) : QueueData :=
  let postedIds := (q.inmates.filter (fun i => i.posted)).map (·.id)
  let kept := q.inmates.filter (fun i => i.id ∈ postedIds)
  { q with
    totalInmates := kept.length
    postedCount := kept.countP (·.posted)
    inmates := kept }

/-- Model of `cleanup_unposted_mugshots` (data.py, lines 997-1033): a missing queue file
is caught by the dedicated `except FileNotFoundError` branch, which prints
"nothing to clean" and returns `True`; otherwise the snapshot is pruned and
rewritten and the function returns `True`. -/
def cleanup_unposted_mugshots (q : Option QueueData) : Bool × Option QueueData :=
  match q with
  | none => (true, none)
  | some qd => (true, some (cleanupQ qd))

/-- The optional BLIP gate of `get_next_inmates_to_post`: `none` when the
filter is unavailable, `some f` when available, where `f` returns the
`(approved, rejected)` split or `none` if filtering raised. -/
def BlipGate : Type := Option (List QueueJob → Option (List QueueJob × List QueueJob))

/-- Model of `get_next_inmates_to_post` (data.py, lines 852-904): a missing queue file
is caught (`except FileNotFoundError`) and yields `[]`; otherwise the first
`batchSize` unposted jobs, optionally run through the BLIP gate (falling back
to the unfiltered batch if the gate raises). The function never writes. -/
def get_next_inmates_to_post (blip : BlipGate) (q : Option QueueData) (batchSize : ℕ) :
    List QueueJob :=
  match q with
  | none => []
  | some qd =>
    let unposted := qd.inmates.filter (fun i => ¬ i.posted)
    if unposted = [] then []
    else
      let nextInmate := unposted.take batchSize
      match blip with
      | none => nextInmate
      | some f =>
        match f nextInmate with
        | none => nextInmate
        | some (approved, _) => if approved ≠ [] then approved else []

/-- Model of `get_daily_post_count` (data.py, lines 2430-2457): any failure to read the
queue yields 0; otherwise count jobs that are posted, carry a `posted_at`, and
whose Central-time calendar date equals `today`. -/
def get_daily_post_count (q : Option QueueData) (today : ℤ) : ℕ :=
  match q with
  | none => 0
  | some qd =>
    qd.inmates.countP (fun j =>
      j.posted && (match j.postedAt with
        | some t => decide (t.date = today)
        | none => false))

/-- One step of the most-recent-post scan of `is_posting_allowed`: a posted
job with a `posted_at` replaces the running maximum when it is later. -/
def lastPostStep (last : Option ℚ) (j : QueueJob) : Option ℚ :=
  if j.posted then
    match j.postedAt with
    | some t =>
      match last with
      | none => some t.hours
      | some m => if t.hours > m then some t.hours else some m
    | none => last
  else last

/-- The most-recent-post scan of `is_posting_allowed` (data.py, lines
2483-2488): fold over the jobs keeping the greatest `posted_at` of the posted
ones. -/
def lastPostTime (qd : QueueData) : Option ℚ :=
  qd.inmates.foldl lastPostStep none

/-- Model of `is_posting_allowed` (data.py, lines 2459-2511): deny when today's post
count has reached `DAILY_POST_LIMIT`; else deny when the current hour is
outside `[POSTING_START_HOUR, POSTING_END_HOUR)`; else allow unless the queue
is readable and its most recent post is less than `POSTING_INTERVAL_HOURS`
old (a missing queue file makes the interval check raise, which is caught and
allows posting). Reads only; never writes. -/
def is_posting_allowed (now : Timestamp) (nowHour : ℕ) (q : Option QueueData) : Bool :=
  if get_daily_post_count q now.date ≥ Config.DAILY_POST_LIMIT then false
  else if nowHour < Config.POSTING_START_HOUR ∨ nowHour ≥ Config.POSTING_END_HOUR then false
  else
    match q with
    | none => true
    | some qd =>
      match lastPostTime qd with
      | none => true
      | some last => if now.hours - last < Config.POSTING_INTERVAL_HOURS then false else true

example : parse_bail_amount "" = 0 := by decide
example : parse_bail_amount "HOLD WITHOUT BAIL" = 999999999 := by decide
example : parse_bail_amount "$1,250.00" = 1250 := by decide
example : parse_bail_amount "RELEASED" = 0 := by decide
example : parse_bail_amount "garbage" = 0 := by decide
example : parse_bail_amount "No bail information" = 999999999 := by decide
example : get_bail_amount "No bail information" = some 0 := by decide
example : get_bail_amount "HOLD WITHOUT BAIL" = some 0 := by decide
example : get_bail_amount "$500.00" = some 500 := by decide
example : parse_bail_amount "Bail: $12.50" = mkRat 25 2 := by decide
example : is_valid_name "Jane Q. Public" = true := by decide
example : is_valid_name "Booking_12345678" = false := by decide
example : (validate_inmate_data ⟨"Jane Q. Public", "THEFT", "$2,500.00", "m.jpg"⟩).ok = true := by
  decide
example : (validate_inmate_data ⟨"Unknown", "THEFT", "$2,500.00", "m.jpg"⟩).issues =
    ["Missing or invalid name"] := by decide
example : caption_bail_display "No bail information" = "N/A" := by decide
example : caption_bail_display "next court appearance: 7/1" = "N/A" := by decide
example : caption_bail_display "$500.00" = "$500.00" := by decide
example :
    filter_priority_inmates
      [⟨"A B", "No charge listed", "$100.00", "a.jpg"⟩,
       ⟨"C D", "THEFT OF PROPERTY", "$50.00", "c.jpg"⟩] 10 =
    some
      [⟨"C D", "THEFT OF PROPERTY", "$50.00", "c.jpg"⟩,
       ⟨"A B", "No charge listed", "$100.00", "a.jpg"⟩] := by decide
example :
    filter_priority_inmates
      [⟨"A B", "THEFT OF PROPERTY", "HOLD WITHOUT BAIL", "a.jpg"⟩,
       ⟨"C D", "ASSAULT CRIME", "$500.00", "c.jpg"⟩] 10 =
    some
      [⟨"C D", "ASSAULT CRIME", "$500.00", "c.jpg"⟩,
       ⟨"A B", "THEFT OF PROPERTY", "HOLD WITHOUT BAIL", "a.jpg"⟩] := by decide
example :
    (markQ [3] ⟨1, 10⟩
      ⟨⟨0, 0⟩, 2, 0,
       [⟨3, ⟨"A B", "c", "b", "m"⟩, false, none⟩,
        ⟨4, ⟨"C D", "c", "b", "m"⟩, false, none⟩]⟩).postedCount = 1 := by decide
example :
    is_posting_allowed ⟨5, 100⟩ 10 (some ⟨⟨0, 0⟩, 1, 0, [⟨1, ⟨"A B", "c", "b", "m"⟩, false, none⟩]⟩) =
      true := by decide
example : is_posting_allowed ⟨5, 100⟩ 23 none = false := by decide

/-! ## Theorems for the claims -/

/-- Claim C2. The claim says a bail text containing `NO BAIL INFORMATION`
(case-insensitively) parses to 0, and the code's own (unreachable) branch
agrees; but the `'NO BAIL' in bail_upper` test runs first and
`NO BAIL INFORMATION` contains `NO BAIL`, so `parse_bail_amount` returns the
999999999 sentinel on the extraction default `'No bail information'`. -/
theorem parse_bail_amount_no_bail_information_value :
    parse_bail_amount "No bail information" = 999999999 := by decide

/-- Claim C3 counterexample. The claim says `cleanup_unposted_mugshots` signals
a hard failure when the queue snapshot file is missing; in fact its dedicated
`except FileNotFoundError` handler returns `True` (success). -/
theorem cleanup_missing_queue_returns_success :
    (cleanup_unposted_mugshots none).1 = true := rfl

/-- Claim C3 (amended). With the queue snapshot file missing,
`get_next_inmates_to_post` returns the empty list (legitimate empty queue),
`mark_inmates_as_posted` returns a failure status and writes nothing, and
`cleanup_unposted_mugshots` returns a success status ("nothing to clean") and
writes nothing. -/
theorem missing_queue_file_behavior (blip : BlipGate) (batchSize : ℕ)
    (inmateIds : List ℕ) (now : Timestamp) :
    get_next_inmates_to_post blip none batchSize = [] ∧
    mark_inmates_as_posted inmateIds now none = (false, none) ∧
    cleanup_unposted_mugshots none = (true, none) :=
  ⟨rfl, rfl, rfl⟩

/-- Claim C4. Every snapshot written back by the queue's three write operations
satisfies `posted_count == count(j.posted for j in jobs)`: creation writes 0
posted jobs and `posted_count = 0`, and the other two recompute
`posted_count` from the job list they write. -/
theorem queue_writes_preserve_posted_count :
    (∀ (dataList : List Inmate) (now : Timestamp) (q : QueueData),
      save_to_posting_queue dataList now = some q → queueInvariant q) ∧
    (∀ (inmateIds : List ℕ) (now : Timestamp) (q : QueueData),
      queueInvariant (markQ inmateIds now q)) ∧
    (∀ q : QueueData, queueInvariant (cleanupQ q)) := by
  refine ⟨?_, fun _ _ _ => rfl, fun _ => rfl⟩
  intro dataList now q hq
  unfold save_to_posting_queue at hq
  cases h : filter_priority_inmates dataList 10 with
  | none => rw [h] at hq; exact absurd hq (by simp)
  | some filtered =>
    rw [h] at hq
    simp only [Option.map_some'] at hq
    cases hq
    unfold queueInvariant
    simp [List.countP_map, Function.comp_def, List.countP_eq_zero]

/-- Claim C4 witness. Instantiation at a concrete two-record batch and queue. -/
theorem queue_writes_preserve_posted_count_witness :
    queueInvariant
      ⟨⟨0, 0⟩, 1, 0, [⟨1, ⟨"A B", "THEFT CRIME", "$100.00", "m.jpg"⟩, false, none⟩]⟩ ∧
    queueInvariant (markQ [1] ⟨0, 1⟩
      ⟨⟨0, 0⟩, 1, 0, [⟨1, ⟨"A B", "THEFT CRIME", "$100.00", "m.jpg"⟩, false, none⟩]⟩) ∧
    queueInvariant (cleanupQ
      ⟨⟨0, 0⟩, 1, 0, [⟨1, ⟨"A B", "THEFT CRIME", "$100.00", "m.jpg"⟩, false, none⟩]⟩) :=
  ⟨queue_writes_preserve_posted_count.1
      [⟨"A B", "THEFT CRIME", "$100.00", "m.jpg"⟩] ⟨0, 0⟩ _ (by decide),
   queue_writes_preserve_posted_count.2.1 [1] ⟨0, 1⟩ _,
   queue_writes_preserve_posted_count.2.2 _⟩

/-- Claim C8. Marking the same id set twice does not double count: the
`posted_count` written by the second `mark_inmates_as_posted` call equals the
one written by the first, whatever timestamps the two calls observe. -/
theorem mark_inmates_as_posted_idempotent_count (inmateIds : List ℕ)
    (now now' : Timestamp) (q : QueueData) :
    ((mark_inmates_as_posted inmateIds now'
        ((mark_inmates_as_posted inmateIds now (some q)).2)).2).map (·.postedCount) =
      ((mark_inmates_as_posted inmateIds now (some q)).2).map (·.postedCount) := by
  simp only [mark_inmates_as_posted, Option.map_some']
  unfold markQ
  simp only [List.map_map, List.countP_map]
  congr 1
  apply List.countP_congr
  intro j _
  by_cases h : j.id ∈ inmateIds <;> simp [h, Function.comp_def]

/-- Claim C5. Admissibility is exactly "usable name and mugshot present": the
result holds iff the name is truthy and not `'Unknown'` (the admissibility
notion of a valid name) and the mugshot reference is truthy and not the
`'No Image'` sentinel; replacing charge and bail by anything changes neither
the verdict nor the issue list, and every issue is one of the two fixed
name/mugshot messages. -/
theorem validate_inmate_data_name_mugshot_only (d : Inmate) (c b : String) :
    ((validate_inmate_data d).ok = true ↔
      (d.fullName ≠ "" ∧ d.fullName ≠ "Unknown") ∧
      (d.mugshotFile ≠ "" ∧ d.mugshotFile ≠ "No Image")) ∧
    (validate_inmate_data { d with charge := c, bail := b }).ok = (validate_inmate_data d).ok ∧
    (validate_inmate_data { d with charge := c, bail := b }).issues =
      (validate_inmate_data d).issues ∧
    (∀ s ∈ (validate_inmate_data d).issues,
      s = "Missing or invalid name" ∨ s = "Missing mugshot") := by
  unfold validate_inmate_data
  refine ⟨?_, rfl, rfl, ?_⟩
  · by_cases h1 : d.fullName = "" ∨ d.fullName = "Unknown" <;>
      by_cases h2 : d.mugshotFile = "" ∨ d.mugshotFile = "No Image" <;>
      simp [h1, h2] <;> tauto
  · intro s hs
    by_cases h1 : d.fullName = "" ∨ d.fullName = "Unknown" <;>
      by_cases h2 : d.mugshotFile = "" ∨ d.mugshotFile = "No Image" <;>
      simp [h1, h2] at hs <;> tauto

/-- Claim C5 witness. Instantiation at a record lacking a mugshot. -/
theorem validate_inmate_data_name_mugshot_only_witness :
    ((validate_inmate_data ⟨"Jane Q. Public", "THEFT", "$2,500.00", "No Image"⟩).ok = true ↔
      (("Jane Q. Public" : String) ≠ "" ∧ ("Jane Q. Public" : String) ≠ "Unknown") ∧
      (("No Image" : String) ≠ "" ∧ ("No Image" : String) ≠ "No Image")) ∧
    (validate_inmate_data ⟨"Jane Q. Public", "", "", "No Image"⟩).ok =
      (validate_inmate_data ⟨"Jane Q. Public", "THEFT", "$2,500.00", "No Image"⟩).ok ∧
    (validate_inmate_data ⟨"Jane Q. Public", "", "", "No Image"⟩).issues =
      (validate_inmate_data ⟨"Jane Q. Public", "THEFT", "$2,500.00", "No Image"⟩).issues ∧
    (∀ s ∈ (validate_inmate_data ⟨"Jane Q. Public", "THEFT", "$2,500.00", "No Image"⟩).issues,
      s = "Missing or invalid name" ∨ s = "Missing mugshot") :=
  validate_inmate_data_name_mugshot_only ⟨"Jane Q. Public", "THEFT", "$2,500.00", "No Image"⟩ "" ""

/-- Claim C9. The caption is never empty; the charge field does not influence
the rendered caption at all; and the bail line shows the literal `N/A`
whenever the stripped bail text is empty, contains a denylisted placeholder
phrase, or contains the `NEXT COURT APPEARANCE` artifact case-insensitively. -/
theorem generate_caption_total_and_na (d : Inmate) (currentDate : String) :
    (generate_caption d currentDate).length > 0 ∧
    (∀ c, generate_caption { d with charge := c } currentDate =
      generate_caption d currentDate) ∧
    ((String.mk (pyStrip d.bail.data) = "" ∨
        (∃ p ∈ invalid_bail_patterns, substrB p (String.mk (pyStrip d.bail.data)) = true) ∨
        listContainsStr "NEXT COURT APPEARANCE".data (pyUpper (pyStrip d.bail.data)) = true) →
      caption_bail_display (String.mk (pyStrip d.bail.data)) = "N/A") := by
  refine ⟨?_, fun c => rfl, ?_⟩
  · unfold generate_caption
    simp only [String.length_append]
    have h7 : 0 < ("\nNAME: " : String).length := by decide
    omega
  · intro h
    unfold caption_bail_display
    rw [if_pos]
    unfold caption_should_show_na
    rcases h with h | ⟨p, hp, hsub⟩ | h
    · simp [h]
    · refine Bool.or_eq_true_iff.mpr (Or.inl (Bool.or_eq_true_iff.mpr (Or.inr ?_)))
      exact List.any_eq_true.mpr ⟨p, hp, hsub⟩
    · simp [h]

/-- Claim C9 witness. A degenerate record: empty name, absent bail. -/
theorem generate_caption_total_and_na_witness :
    (generate_caption ⟨"", "", "No bail information", "No Image"⟩ "01/01/2025").length > 0 ∧
    generate_caption ⟨"", "THEFT", "No bail information", "No Image"⟩ "01/01/2025" =
      generate_caption ⟨"", "", "No bail information", "No Image"⟩ "01/01/2025" ∧
    caption_bail_display (String.mk (pyStrip ("No bail information" : String).data)) = "N/A" := by
  have h := generate_caption_total_and_na ⟨"", "", "No bail information", "No Image"⟩ "01/01/2025"
  exact ⟨h.1, h.2.1 "THEFT",
    h.2.2 (Or.inr (Or.inl ⟨"No bail information", by decide, by decide⟩))⟩

/-- Claim C10. When extraction yields no usable name, `process_booking` renames
the record `Booking_<bookingId>`; that record is admissible exactly when a
mugshot was saved, even though the fallback name (digits after `Booking_`,
hence no space) fails the extraction-time `_is_valid_name` rules. -/
theorem booking_fallback_name_admissible (bookingId : String) (d : Inmate)
    (hname : d.fullName = "" ∨ d.fullName = "Unknown")
    (hdigits : ∀ ch ∈ bookingId.data, ch.isDigit) :
    (process_booking_fallback_name bookingId d).fullName = "Booking_" ++ bookingId ∧
    ((validate_inmate_data (process_booking_fallback_name bookingId d)).ok = true ↔
      (d.mugshotFile ≠ "" ∧ d.mugshotFile ≠ "No Image")) ∧
    is_valid_name (process_booking_fallback_name bookingId d).fullName = false := by
  have hfall : process_booking_fallback_name bookingId d =
      { d with fullName := "Booking_" ++ bookingId } := by
    unfold process_booking_fallback_name
    rw [if_pos hname]
  have hdata : ("Booking_" ++ bookingId).data = "Booking_".data ++ bookingId.data :=
    String.data_append "Booking_" bookingId
  have hne : ("Booking_" ++ bookingId) ≠ "" := by
    intro h
    have := congrArg String.data h
    rw [hdata] at this
    exact absurd this (by simp)
  have hnu : ("Booking_" ++ bookingId) ≠ "Unknown" := by
    intro h
    have := congrArg String.data h
    rw [hdata] at this
    exact absurd (List.head_eq_of_cons_eq this) (by decide)
  refine ⟨by rw [hfall], ?_, ?_⟩
  · rw [hfall]
    have h := validate_inmate_data_name_mugshot_only { d with fullName := "Booking_" ++ bookingId }
      d.charge d.bail
    rw [h.1]
    simp [hne, hnu]
  · rw [hfall]
    show is_valid_name ("Booking_" ++ bookingId) = false
    have hnospace : ' ' ∉ ("Booking_" ++ bookingId).data := by
      rw [hdata]
      intro hmem
      rcases List.mem_append.mp hmem with h | h
      · exact absurd h (by decide)
      · exact absurd (hdigits ' ' h) (by decide)
    have hlen : ¬("Booking_" ++ bookingId = "" ∨
        ("Booking_" ++ bookingId).data.length < Config.MIN_NAME_LENGTH) := by
      push_neg
      refine ⟨hne, ?_⟩
      rw [hdata, List.length_append]
      have h8 : "Booking_".data.length = 8 := by decide
      have hm : Config.MIN_NAME_LENGTH = 3 := rfl
      omega
    unfold is_valid_name
    rw [if_neg hlen, if_pos hnospace]

/-- Claim C10 witness. A concrete booking id and nameless record with a saved
mugshot. -/
theorem booking_fallback_name_admissible_witness :
    (process_booking_fallback_name "12345678" ⟨"", "c", "b", "m.jpg"⟩).fullName =
      "Booking_" ++ "12345678" ∧
    ((validate_inmate_data (process_booking_fallback_name "12345678" ⟨"", "c", "b", "m.jpg"⟩)).ok =
      true ↔ (("m.jpg" : String) ≠ "" ∧ ("m.jpg" : String) ≠ "No Image")) ∧
    is_valid_name (process_booking_fallback_name "12345678" ⟨"", "c", "b", "m.jpg"⟩).fullName =
      false :=
  booking_fallback_name_admissible "12345678" ⟨"", "c", "b", "m.jpg"⟩ (Or.inl rfl) (by decide)

/-- A queue with no posted job leaves the most-recent-post scan at its
starting accumulator. -/
theorem foldl_lastPostStep_unposted :
    ∀ (l : List QueueJob) (acc : Option ℚ), (∀ j ∈ l, j.posted = false) →
      l.foldl lastPostStep acc = acc := by
  intro l
  induction l with
  | nil => intro acc _; rfl
  | cons j t ih =>
    intro acc h
    have hj : j.posted = false := h j (List.mem_cons_self j t)
    have hstep : lastPostStep acc j = acc := by
      unfold lastPostStep
      rw [hj]
      simp
    rw [List.foldl_cons, hstep]
    exact ih acc (fun x hx => h x (List.mem_cons_of_mem j hx))

/-- Claim C6. The scheduling gate: reaching the daily limit forces denial
regardless of the hour or interval; an hour outside
`[POSTING_START_HOUR, POSTING_END_HOUR)` forces denial; a most recent post
less than `POSTING_INTERVAL_HOURS` old forces denial; and with no prior
posts and the hour inside the window the gate allows. The embedded check is
a pure function of the observed time and snapshot, so it mutates nothing. -/
theorem is_posting_allowed_conditions (now : Timestamp) (nowHour : ℕ) (q : Option QueueData) :
    (get_daily_post_count q now.date ≥ Config.DAILY_POST_LIMIT →
      is_posting_allowed now nowHour q = false) ∧
    (nowHour < Config.POSTING_START_HOUR ∨ nowHour ≥ Config.POSTING_END_HOUR →
      is_posting_allowed now nowHour q = false) ∧
    (∀ qd last, q = some qd → lastPostTime qd = some last →
      now.hours - last < Config.POSTING_INTERVAL_HOURS →
      is_posting_allowed now nowHour q = false) ∧
    ((∀ qd, q = some qd → ∀ j ∈ qd.inmates, j.posted = false) →
      Config.POSTING_START_HOUR ≤ nowHour → nowHour < Config.POSTING_END_HOUR →
      is_posting_allowed now nowHour q = true) := by
  refine ⟨?_, ?_, ?_, ?_⟩
  · intro h
    unfold is_posting_allowed
    rw [if_pos h]
  · intro h
    unfold is_posting_allowed
    by_cases hd : get_daily_post_count q now.date ≥ Config.DAILY_POST_LIMIT
    · rw [if_pos hd]
    · rw [if_neg hd, if_pos h]
  · intro qd last hq hlast hint
    subst hq
    unfold is_posting_allowed
    by_cases hd : get_daily_post_count (some qd) now.date ≥ Config.DAILY_POST_LIMIT
    · rw [if_pos hd]
    · rw [if_neg hd]
      by_cases hh : nowHour < Config.POSTING_START_HOUR ∨ nowHour ≥ Config.POSTING_END_HOUR
      · rw [if_pos hh]
      · rw [if_neg hh]
        show (match lastPostTime qd with
          | none => true
          | some last =>
            if now.hours - last < Config.POSTING_INTERVAL_HOURS then false else true) = false
        rw [hlast]
        exact if_pos hint
  · intro hall h1 h2
    have hd : get_daily_post_count q now.date = 0 := by
      cases q with
      | none => rfl
      | some qd =>
        unfold get_daily_post_count
        rw [List.countP_eq_zero]
        intro j hj
        simp [hall qd rfl j hj]
    unfold is_posting_allowed
    rw [if_neg (by rw [hd]; decide), if_neg (by omega)]
    cases q with
    | none => rfl
    | some qd =>
      show (match lastPostTime qd with
        | none => true
        | some last =>
          if now.hours - last < Config.POSTING_INTERVAL_HOURS then false else true) = true
      rw [show lastPostTime qd = none from foldl_lastPostStep_unposted _ _ (hall qd rfl)]

/-- Claim C6 witness. Concrete instantiations: a saturated day forces denial, a
late hour forces denial, a one-hour-old post forces denial, and a fresh queue
at 10:00 allows. -/
theorem is_posting_allowed_conditions_witness :
    is_posting_allowed ⟨5, 100⟩ 10
      (some ⟨⟨0, 0⟩, 5, 5,
        [⟨1, ⟨"A B", "c", "b", "m"⟩, true, some ⟨5, 90⟩⟩,
         ⟨2, ⟨"C D", "c", "b", "m"⟩, true, some ⟨5, 91⟩⟩,
         ⟨3, ⟨"E F", "c", "b", "m"⟩, true, some ⟨5, 92⟩⟩,
         ⟨4, ⟨"G H", "c", "b", "m"⟩, true, some ⟨5, 93⟩⟩,
         ⟨5, ⟨"I J", "c", "b", "m"⟩, true, some ⟨5, 94⟩⟩]⟩) = false ∧
    is_posting_allowed ⟨5, 100⟩ 23 none = false ∧
    is_posting_allowed ⟨6, 100⟩ 10
      (some ⟨⟨0, 0⟩, 1, 1, [⟨1, ⟨"A B", "c", "b", "m"⟩, true, some ⟨5, 99⟩⟩]⟩) = false ∧
    is_posting_allowed ⟨5, 100⟩ 10
      (some ⟨⟨0, 0⟩, 1, 0, [⟨1, ⟨"A B", "c", "b", "m"⟩, false, none⟩]⟩) = true := by
  refine ⟨?_, ?_, ?_, ?_⟩
  · exact (is_posting_allowed_conditions ⟨5, 100⟩ 10 _).1 (by decide)
  · exact (is_posting_allowed_conditions ⟨5, 100⟩ 23 none).2.1 (by decide)
  · exact (is_posting_allowed_conditions ⟨6, 100⟩ 10 _).2.2.1 _ 99 rfl (by decide)
      (by norm_num [Config.POSTING_INTERVAL_HOURS])
  · refine (is_posting_allowed_conditions ⟨5, 100⟩ 10 _).2.2.2 ?_ (by decide) (by decide)
    intro qd hqd j hj
    cases hqd
    simp at hj
    rw [hj]

/-- A successful ranking call means every bail key computed, and the output is
the truncated stable sort. -/
theorem filter_priority_inmates_eq_some {d : List Inmate} {n : ℕ} {out : List Inmate}
    (h : filter_priority_inmates d n = some out) :
    (∀ i ∈ d, (fpiKey i).isSome = true) ∧ out = (List.insertionSort fpiR d).take n := by
  unfold filter_priority_inmates at h
  by_cases hall : d.all (fun i => (fpiKey i).isSome)
  · rw [if_pos hall] at h
    exact ⟨List.all_eq_true.mp hall, (Option.some_injective _ h).symm⟩
  · rw [if_neg hall] at h
    exact absurd h (by simp)

/-- When every bail key computes, the ranking call succeeds with the truncated
stable sort. -/
theorem filter_priority_inmates_of_keys {d : List Inmate} {n : ℕ}
    (h : ∀ i ∈ d, (fpiKey i).isSome = true) :
    filter_priority_inmates d n = some ((List.insertionSort fpiR d).take n) := by
  unfold filter_priority_inmates
  rw [if_pos (List.all_eq_true.mpr h)]

/-- Unfolds the sort key through a computed bail amount. -/
theorem fpiKeyD_eq {i : Inmate} {b : ℚ} (h : get_bail_amount i.bail = some b) :
    fpiKeyD i = (-(get_priority i : ℤ), -b) := by
  unfold fpiKeyD fpiKey
  rw [h]
  rfl

/-- Stability of the embedded stable sort for any selection of records that
are pairwise tied under the ordering: the sort keeps their original relative
order, so filtering them out of the sorted list recovers exactly their
original subsequence. -/
theorem insertionSort_fpiR_filter (p : Inmate → Bool)
    (hp : ∀ a b, p a = true → p b = true → fpiR a b) (d : List Inmate) :
    (List.insertionSort fpiR d).filter p = d.filter p := by
  have hpair : (d.filter p).Pairwise fpiR := by
    apply List.pairwise_of_forall_mem_list
    intro a ha b hb
    exact hp a b (List.of_mem_filter ha) (List.of_mem_filter hb)
  have hsub : List.Sublist (d.filter p) (List.insertionSort fpiR d) :=
    List.sublist_insertionSort hpair (List.filter_sublist d)
  have hidem : (d.filter p).filter p = d.filter p :=
    List.filter_eq_self.mpr (fun a ha => List.of_mem_filter ha)
  have hsub2 : List.Sublist (d.filter p) ((List.insertionSort fpiR d).filter p) := by
    rw [← hidem]
    exact hsub.filter p
  have hlen : (d.filter p).length = ((List.insertionSort fpiR d).filter p).length := by
    rw [← List.countP_eq_length_filter, ← List.countP_eq_length_filter]
    exact ((List.perm_insertionSort fpiR d).countP_eq p).symm
  exact (hsub2.eq_of_length hlen).symm

/-- Stability at a fixed sort key: restricted to any one key value, the sorted
list is exactly the input list in its original order. -/
theorem insertionSort_fpiR_filter_key (d : List Inmate) (k : ℤ × ℚ) :
    (List.insertionSort fpiR d).filter (fun i => decide (fpiKeyD i = k)) =
      d.filter (fun i => decide (fpiKeyD i = k)) := by
  apply insertionSort_fpiR_filter
  intro a b ha hb
  have ha' : fpiKeyD a = k := of_decide_eq_true ha
  have hb' : fpiKeyD b = k := of_decide_eq_true hb
  unfold fpiR
  rw [ha', hb']
  exact Or.inr ⟨rfl, le_refl _⟩

/-- Claim C7 (amended). Shape and determinism of the ranking, for every batch
whose bail keys all compute (no `float` crash; see
`ranking_crashes_on_unparsable_dollar_bail` for the batches this excludes):
it returns exactly `min topN (length input)` records; the empty input returns
`[]`; `topN ≥ length` returns the whole input, reordered only by the sort
(a permutation, pairwise in key order); and restricted to records of any one
sort key the output preserves the original scrape order exactly (so the
function, being pure, yields identical output on identical input). -/
theorem filter_priority_inmates_shape_and_stability :
    (∀ (d : List Inmate) (n : ℕ), (∀ i ∈ d, (fpiKey i).isSome = true) →
      ∃ out, filter_priority_inmates d n = some out ∧ out.length = min n d.length) ∧
    (∀ n, filter_priority_inmates [] n = some []) ∧
    (∀ (d : List Inmate) (n : ℕ), (∀ i ∈ d, (fpiKey i).isSome = true) → d.length ≤ n →
      filter_priority_inmates d n = some (List.insertionSort fpiR d) ∧
      (List.insertionSort fpiR d).Perm d ∧ (List.insertionSort fpiR d).Pairwise fpiR) ∧
    (∀ (d : List Inmate) (k : ℤ × ℚ),
      (List.insertionSort fpiR d).filter (fun i => decide (fpiKeyD i = k)) =
        d.filter (fun i => decide (fpiKeyD i = k))) := by
  refine ⟨?_, ?_, ?_, insertionSort_fpiR_filter_key⟩
  · intro d n h
    refine ⟨_, filter_priority_inmates_of_keys h, ?_⟩
    rw [List.length_take, List.length_insertionSort]
  · intro n
    simp [filter_priority_inmates]
  · intro d n h hn
    refine ⟨?_, List.perm_insertionSort fpiR d, List.sorted_insertionSort fpiR d⟩
    rw [filter_priority_inmates_of_keys h,
      List.take_of_length_le (by rw [List.length_insertionSort]; exact hn)]

/-- Claim C7 witness. Concrete instantiations of the two hypothetical parts on a
two-record batch. -/
theorem filter_priority_inmates_shape_witness :
    (∃ out,
      filter_priority_inmates
        [⟨"A B", "THEFT OF PROPERTY", "$100.00", "a.jpg"⟩,
         ⟨"C D", "THEFT CRIME", "$50.00", "c.jpg"⟩] 1 = some out ∧
      out.length = min 1
        ([⟨"A B", "THEFT OF PROPERTY", "$100.00", "a.jpg"⟩,
          ⟨"C D", "THEFT CRIME", "$50.00", "c.jpg"⟩] : List Inmate).length) ∧
    (filter_priority_inmates
        [⟨"A B", "THEFT OF PROPERTY", "$100.00", "a.jpg"⟩,
         ⟨"C D", "THEFT CRIME", "$50.00", "c.jpg"⟩] 5 =
      some (List.insertionSort fpiR
        [⟨"A B", "THEFT OF PROPERTY", "$100.00", "a.jpg"⟩,
         ⟨"C D", "THEFT CRIME", "$50.00", "c.jpg"⟩]) ∧
      (List.insertionSort fpiR
        [⟨"A B", "THEFT OF PROPERTY", "$100.00", "a.jpg"⟩,
         ⟨"C D", "THEFT CRIME", "$50.00", "c.jpg"⟩]).Perm
        [⟨"A B", "THEFT OF PROPERTY", "$100.00", "a.jpg"⟩,
         ⟨"C D", "THEFT CRIME", "$50.00", "c.jpg"⟩] ∧
      (List.insertionSort fpiR
        [⟨"A B", "THEFT OF PROPERTY", "$100.00", "a.jpg"⟩,
         ⟨"C D", "THEFT CRIME", "$50.00", "c.jpg"⟩]).Pairwise fpiR) :=
  ⟨filter_priority_inmates_shape_and_stability.1
      [⟨"A B", "THEFT OF PROPERTY", "$100.00", "a.jpg"⟩,
       ⟨"C D", "THEFT CRIME", "$50.00", "c.jpg"⟩] 1 (by decide),
   filter_priority_inmates_shape_and_stability.2.2.1
      [⟨"A B", "THEFT OF PROPERTY", "$100.00", "a.jpg"⟩,
       ⟨"C D", "THEFT CRIME", "$50.00", "c.jpg"⟩] 5 (by decide) (by decide)⟩

/-- Claim C7 counterexample. The ranking does not return `min(topN, length)`
records for every input list: a record whose bail text is a `$` followed only
by commas — which the extractor's own `_is_valid_bail` accepts — makes the
regex match `"$,"`, the comma stripping leave `""`, and `float("")` raise a
`ValueError` out of `sorted` (no `try` protects `filter_priority_inmates`),
so the call produces no list at all (`none` in the embedding) on a singleton
input where the claim demands one record. -/
theorem ranking_crashes_on_unparsable_dollar_bail :
    is_valid_bail "$," = true ∧
    get_bail_amount "$," = none ∧
    filter_priority_inmates [⟨"A B", "THEFT CRIME", "$,", "m.jpg"⟩] 10 = none ∧
    ¬ ∃ out, filter_priority_inmates [⟨"A B", "THEFT CRIME", "$,", "m.jpg"⟩] 10 = some out ∧
      out.length = min 10 1 := by
  refine ⟨by decide, by decide, by decide, ?_⟩
  rintro ⟨out, hout, -⟩
  rw [show filter_priority_inmates [⟨"A B", "THEFT CRIME", "$,", "m.jpg"⟩] 10 = none
    from by decide] at hout
  exact Option.noConfusion hout

/-- Claim C1 counterexample. Two equal-priority records where
`parse_bail_amount` would rank the `HOLD WITHOUT BAIL` record (sentinel
999999999) first, but the queue ranking's actual tie-break — the local
`get_bail_amount`, which knows no categorical sentinels — scores it 0 and
ranks it last. -/
theorem ranking_tiebreak_not_parse_bail :
    get_priority ⟨"John Doe", "THEFT OF PROPERTY", "HOLD WITHOUT BAIL", "m1.jpg"⟩ =
      get_priority ⟨"Jane Doe", "ASSAULT CRIME", "$500.00", "m2.jpg"⟩ ∧
    parse_bail_amount "HOLD WITHOUT BAIL" > parse_bail_amount "$500.00" ∧
    filter_priority_inmates
      [⟨"John Doe", "THEFT OF PROPERTY", "HOLD WITHOUT BAIL", "m1.jpg"⟩,
       ⟨"Jane Doe", "ASSAULT CRIME", "$500.00", "m2.jpg"⟩] 10 =
      some [⟨"Jane Doe", "ASSAULT CRIME", "$500.00", "m2.jpg"⟩,
            ⟨"John Doe", "THEFT OF PROPERTY", "HOLD WITHOUT BAIL", "m1.jpg"⟩] := by
  refine ⟨by decide, by decide, by decide⟩

/-- Claim C1 (amended). The queue ranking sorts by descending priority first,
and within equal priority by descending dollar amount as computed by the
local `get_bail_amount` (the first `$` figure; 0 for categorical bail values
such as `HOLD WITHOUT BAIL`), the secondary key acting only within equal
priority — it does not use `parse_bail_amount` and its sentinels. -/
theorem filter_priority_inmates_sorted_amended (d : List Inmate) (n : ℕ)
    (out : List Inmate) (h : filter_priority_inmates d n = some out) :
    out.Pairwise (fun a b =>
      get_priority b < get_priority a ∨
      (get_priority a = get_priority b ∧
        (get_bail_amount b.bail).getD 0 ≤ (get_bail_amount a.bail).getD 0)) := by
  obtain ⟨hkeys, hout⟩ := filter_priority_inmates_eq_some h
  subst hout
  have hs : (List.insertionSort fpiR d).Pairwise fpiR := List.sorted_insertionSort fpiR d
  have hp : ((List.insertionSort fpiR d).take n).Pairwise fpiR :=
    List.Pairwise.sublist (List.take_sublist n _) hs
  refine List.Pairwise.imp_of_mem ?_ hp
  intro a b ha hb hr
  have hamem : a ∈ d := (List.mem_insertionSort fpiR).mp (List.mem_of_mem_take ha)
  have hbmem : b ∈ d := (List.mem_insertionSort fpiR).mp (List.mem_of_mem_take hb)
  cases hga : get_bail_amount a.bail with
  | none =>
    have := hkeys a hamem
    unfold fpiKey at this
    rw [hga] at this
    exact absurd this (by simp)
  | some ba =>
    cases hgb : get_bail_amount b.bail with
    | none =>
      have := hkeys b hbmem
      unfold fpiKey at this
      rw [hgb] at this
      exact absurd this (by simp)
    | some bb =>
      unfold fpiR at hr
      rw [fpiKeyD_eq hga, fpiKeyD_eq hgb] at hr
      unfold keyLe at hr
      simp only at hr
      rcases hr with hlt | ⟨heq, hle⟩
      · left
        have := neg_lt_neg_iff.mp hlt
        exact_mod_cast this
      · right
        refine ⟨by exact_mod_cast neg_inj.mp heq, ?_⟩
        simpa using neg_le_neg_iff.mp hle

/-- Claim C1 (amended) witness. The amended ordering at the counterexample's
concrete batch. -/
theorem filter_priority_inmates_sorted_amended_witness :
    ([⟨"Jane Doe", "ASSAULT CRIME", "$500.00", "m2.jpg"⟩,
      ⟨"John Doe", "THEFT OF PROPERTY", "HOLD WITHOUT BAIL", "m1.jpg"⟩] :
        List Inmate).Pairwise (fun a b =>
      get_priority b < get_priority a ∨
      (get_priority a = get_priority b ∧
        (get_bail_amount b.bail).getD 0 ≤ (get_bail_amount a.bail).getD 0)) :=
  filter_priority_inmates_sorted_amended
    [⟨"John Doe", "THEFT OF PROPERTY", "HOLD WITHOUT BAIL", "m1.jpg"⟩,
     ⟨"Jane Doe", "ASSAULT CRIME", "$500.00", "m2.jpg"⟩] 10 _ (by decide)
